import Mathlib

/-
  Verification of the Openclaw XMPP plugin OMEMO engine.

  Shallow embedding of the TypeScript sources:
  - OmemoStore (key and session store): identity keys, registration id,
    one-time prekeys, signed prekeys, trusted identity records (TOFU).
  - OmemoManager: publishBundle, fetchBundle, encryptMessage, decryptMessage.
  - XmppClient.handleStanza: inbound boundary behaviour.

  Modelling conventions:
  - Byte sequences (Node Buffer / ArrayBuffer contents) are lists of
    naturals; well-formed byte sequences have every element below 256.
  - The base64 transport encoding is a bijection on byte sequences and is
    modelled as the identity on the byte lists it carries.
  - Buffer.toString("hex") is modelled concretely as the list of character
    codes of the hex string (two lowercase hex digits per byte), because the
    store compares identity keys as hex strings.
  - File persistence (OmemoStore.save writing the JSON file) is modelled by
    a `disk` field holding the last written copy of the data.
  - Randomness (crypto.randomBytes, KeyHelper generators) is passed in as
    explicit arguments, AES-128-GCM and the libsignal ratchet as function
    parameters, so the code under verification is exactly the glue the
    repository itself contains.
-/

abbrev Bytes := List Nat

/-- One hex digit character code, as produced by Buffer.toString("hex"):
digits 0-9 map to codes 48-57, digits 10-15 to the lowercase letters a-f
(codes 97-102). -/
def hexDigit (n : Nat) : Nat := if n < 10 then 48 + n else 87 + n

/-- The two hex digit character codes of one byte. -/
def byteToHex (b : Nat) : List Nat := [hexDigit (b / 16), hexDigit (b % 16)]

/-- Character codes of Buffer.from(bytes).toString("hex"). -/
def bytesToHex : Bytes → List Nat
  | [] => []
  | b :: bs => byteToHex b ++ bytesToHex bs

/-- JavaScript record lookup `m[k]` (undefined when absent). -/
def getKey {α β : Type} [DecidableEq α] (k : α) : List (α × β) → Option β
  | [] => none
  | (k', v) :: rest => if k' = k then some v else getKey k rest

/-- JavaScript record assignment `m[k] = v` (overwrites in place, appends
when the key is new). -/
def setKey {α β : Type} [DecidableEq α] (k : α) (v : β) : List (α × β) → List (α × β)
  | [] => [(k, v)]
  | (k', v') :: rest => if k' = k then (k, v) :: rest else (k', v') :: setKey k v rest

/-- Serialized identity key pair (the JSON record hex-stored under
`data.identityKeyPair`). -/
structure IdKeyRaw where
  pubKey : Bytes
  privKey : Bytes
deriving DecidableEq

/-- Serialized one-time prekey record (`data.preKeys[id]`). -/
structure PreKeyRaw where
  keyId : Nat
  pubKey : Bytes
  privKey : Bytes
deriving DecidableEq

/-- Serialized signed prekey record (`data.signedPreKeys[id]`). -/
structure SignedPreKeyRaw where
  keyId : Nat
  pubKey : Bytes
  privKey : Bytes
  signature : Bytes
deriving DecidableEq

/-- The persisted store layout `OmemoStorageData` of OmemoStore.
Identity keys of peers are stored as hex strings (here: hex character-code
lists), sessions as serialized ratchet state. -/
structure OmemoStorageData where
  identityKeyPair : Option IdKeyRaw
  registrationId : Option Nat
  sessions : List (String × Bytes)
  preKeys : List (Nat × PreKeyRaw)
  signedPreKeys : List (Nat × SignedPreKeyRaw)
  identityKeys : List (String × List Nat)
deriving DecidableEq

/-- The store: in-memory `data` plus the last persisted copy `disk`
(`save()` writes `data` to the JSON file). -/
structure OmemoStore where
  data : OmemoStorageData
  disk : OmemoStorageData
deriving DecidableEq

/-- `save()`: write-through persistence of the whole store state. -/
def OmemoStore.save (s : OmemoStore) : OmemoStore := { s with disk := s.data }

def emptyStorageData : OmemoStorageData :=
  { identityKeyPair := none, registrationId := none, sessions := [],
    preKeys := [], signedPreKeys := [], identityKeys := [] }

/-- A fresh store, as produced by `init()` when no file exists or the
persisted state cannot be parsed. -/
def emptyOmemoStore : OmemoStore :=
  { data := emptyStorageData, disk := emptyStorageData }

/-- `putIdentityKeyPair(registrationId, keyPair)`: sets both fields, then
saves. -/
def OmemoStore.putIdentityKeyPair (s : OmemoStore) (registrationId : Nat)
    (keyPair : IdKeyRaw) : OmemoStore :=
  OmemoStore.save
    { s with data := { s.data with registrationId := some registrationId,
                                   identityKeyPair := some keyPair } }

/-- `storeSignedPreKey(keyId, record)`. -/
def OmemoStore.storeSignedPreKey (s : OmemoStore) (keyId : Nat)
    (record : SignedPreKeyRaw) : OmemoStore :=
  OmemoStore.save
    { s with data := { s.data with
        signedPreKeys := setKey keyId record s.data.signedPreKeys } }

/-- `getIdentityKeyPair()`: stored value or an absent signal. -/
def OmemoStore.getIdentityKeyPair (s : OmemoStore) : Option IdKeyRaw :=
  s.data.identityKeyPair

/-- `getLocalRegistrationId()`. -/
def OmemoStore.getLocalRegistrationId (s : OmemoStore) : Option Nat :=
  s.data.registrationId

/-- `getSignedPreKeys()`: loads every stored signed prekey record. -/
def OmemoStore.getSignedPreKeys (s : OmemoStore) : List SignedPreKeyRaw :=
  s.data.signedPreKeys.map Prod.snd

/-- `getPreKeys()`: loads every stored one-time prekey record. -/
def OmemoStore.getPreKeys (s : OmemoStore) : List PreKeyRaw :=
  s.data.preKeys.map Prod.snd

/-- `saveIdentity(identifier, identityKey)`: unconditionally overwrites the
record with the hex encoding of the new key, saves, and returns whether the
stored value differs from what was there before (`old !== newHex`). -/
def OmemoStore.saveIdentity (s : OmemoStore) (identifier : String)
    (identityKey : Bytes) : OmemoStore × Bool :=
  let old := getKey identifier s.data.identityKeys
  let newHex := bytesToHex identityKey
  let s' := OmemoStore.save
    { s with data := { s.data with
        identityKeys := setKey identifier newHex s.data.identityKeys } }
  (s', decide (old ≠ some newHex))

/-- `isTrustedIdentity(identifier, identityKey, direction)`: trust on first
use.  The source tests `if (!existing)`, which is JavaScript falsy both
when no record exists and when the stored hex string is empty: in either
case the key is persisted via saveIdentity and trusted.  Otherwise the
store is untouched and trust is hex string equality.  The direction
argument is unused by the source. -/
def OmemoStore.isTrustedIdentity (s : OmemoStore) (identifier : String)
    (identityKey : Bytes) : OmemoStore × Bool :=
  match getKey identifier s.data.identityKeys with
  | none => ((s.saveIdentity identifier identityKey).1, true)
  | some existing =>
    if existing = [] then ((s.saveIdentity identifier identityKey).1, true)
    else (s, decide (existing = bytesToHex identityKey))

/-- The random key material consumed by one run of `ensureKeys()`:
KeyHelper.generateIdentityKeyPair, generateRegistrationId,
generatePreKey(i) for i below 100, and generateSignedPreKey. -/
structure KeyGen where
  identityKeyPair : IdKeyRaw
  registrationId : Nat
  preKeyPair : Nat → Bytes × Bytes
  signedPreKeyPair : Bytes × Bytes
  signedPreKeySignature : Bytes

/-- The populated-store check of `ensureKeys()`:
`this.data.identityKeyPair && this.data.registrationId &&
Object.keys(this.data.preKeys).length > 0`.  JavaScript truthiness: the
hex string is truthy iff present (it is never empty), the registration id
iff present and nonzero, the record iff it has at least one key.  The
signed prekey map is not consulted. -/
def ensureKeysCheck (d : OmemoStorageData) : Bool :=
  d.identityKeyPair.isSome && (d.registrationId.getD 0 != 0)
    && (d.preKeys.length != 0)

/-- `ensureKeys()`: no-op when the check passes; otherwise generates and
stores the identity key pair with registration id (one save), one hundred
one-time prekeys with ids 0 to 99 written directly into the record (no
save), and signed prekey id 1 (final save of everything). -/
def OmemoStore.ensureKeys (g : KeyGen) (s : OmemoStore) : OmemoStore :=
  if ensureKeysCheck s.data then s
  else
    let s1 := s.putIdentityKeyPair g.registrationId g.identityKeyPair
    let newPreKeys :=
      (List.range 100).foldl
        (fun m i => setKey i
          { keyId := i, pubKey := (g.preKeyPair i).1,
            privKey := (g.preKeyPair i).2 } m)
        s1.data.preKeys
    let s2 : OmemoStore := { s1 with data := { s1.data with preKeys := newPreKeys } }
    s2.storeSignedPreKey 1
      { keyId := 1, pubKey := g.signedPreKeyPair.1,
        privKey := g.signedPreKeyPair.2,
        signature := g.signedPreKeySignature }

def XMLNS_OMEMO : String := "eu.siacs.conversations.axolotl"

/-- The per-device bundle distribution node name. -/
def pepNodeBundles (deviceId : Nat) : String :=
  XMLNS_OMEMO ++ ".bundles:" ++ toString deviceId

/-- The published bundle element content assembled by publishBundle. -/
structure PublishedBundle where
  node : String
  signedPreKeyId : Nat
  signedPreKeyPublic : Bytes
  signedPreKeySignature : Bytes
  identityKey : Bytes
  preKeyPublics : List (Nat × Bytes)
deriving DecidableEq

/-- `publishBundle(deviceId)`: requires the identity key pair, at least one
signed prekey and at least one one-time prekey, else throws
"Missing keys in store. Cannot publish bundle.".  Publishes the first
signed prekey, the identity public key and all one-time prekey publics. -/
def publishBundle (s : OmemoStore) (deviceId : Nat) :
    Except String PublishedBundle :=
  match s.getIdentityKeyPair, s.getSignedPreKeys, s.getPreKeys with
  | some identityKeyPair, signedPreKey :: _, pk :: pks =>
      .ok { node := pepNodeBundles deviceId,
            signedPreKeyId := signedPreKey.keyId,
            signedPreKeyPublic := signedPreKey.pubKey,
            signedPreKeySignature := signedPreKey.signature,
            identityKey := identityKeyPair.pubKey,
            preKeyPublics := (pk :: pks).map (fun k => (k.keyId, k.pubKey)) }
  | _, _, _ => .error "Missing keys in store. Cannot publish bundle."

/-- A recipient of encryptMessage: a bare address plus device id. -/
structure Recipient where
  jid : String
  deviceId : Nat
deriving DecidableEq

/-- One per-recipient key entry of the wire header: recipient device id,
wrapped key bytes, prekey-initiated flag. -/
structure MsgKeyEntry where
  rid : Nat
  k : Bytes
  preKey : Bool
deriving DecidableEq

/-- The wire header: sender device id, nonce, per-recipient key entries. -/
structure OmemoHeader where
  sid : Option Nat
  iv : Bytes
  keys : List MsgKeyEntry
deriving DecidableEq

/-- The encrypted wire structure: header plus optional payload (absent for
key-transport messages). -/
structure OmemoEncryptedData where
  header : OmemoHeader
  payload : Option Bytes
deriving DecidableEq

/-- `encryptMessage(recipients, message)`.

`aeadEnc key iv message` models the AES-128-GCM encryption, returning the
ciphertext and the 16-byte authentication tag.  `wrap r secret` models
`new SessionCipher(store, address(r)).encrypt(secret)` returning the
wrapped bytes and whether the result was a prekey message (type 3); the
source catches any per-recipient throw and simply skips that recipient,
modelled by `none`.  `sid` is `store.getLocalRegistrationId()`, `key` and
`iv` the 16 random key bytes and 12 random nonce bytes.  When no recipient
could be served the source throws "Could not encrypt for any device". -/
def encryptMessage
    (aeadEnc : Bytes → Bytes → Bytes → Bytes × Bytes)
    (wrap : Recipient → Bytes → Option (Bytes × Bool))
    (sid : Option Nat) (key iv : Bytes)
    (recipients : List Recipient) (message : Bytes) :
    Except String OmemoEncryptedData :=
  let payload := (aeadEnc key iv message).1
  let authTag := (aeadEnc key iv message).2
  let keyAndTag := key ++ authTag
  let keys := recipients.filterMap (fun r =>
    (wrap r keyAndTag).map (fun w =>
      { rid := r.deviceId, k := w.1, preKey := w.2 : MsgKeyEntry }))
  if keys.length = 0 then
    .error "Could not encrypt for any device"
  else
    .ok { header := { sid := sid, iv := iv, keys := keys },
          payload := some payload }

/-- `decryptMessage(remoteJid, senderDeviceId, encrypted, myDeviceId)`.

`unwrap flag bytes` models the session cipher for the sender address,
selecting decryptPreKeyWhisperMessage or decryptWhisperMessage by the
prekey flag; `none` models a throw of the underlying ratchet.  `aeadDec
key iv tag ciphertext` models AES-128-GCM decryption, `none` a tag
mismatch throw of decipher.final().  The source first locates the key
entry for the local device (absence is a hard error), unwraps it, then
tests `if (!encrypted.payload)` — JavaScript falsy both when the payload
element is absent and when the base64 payload string is empty (an empty
ciphertext) — and returns null for such key-transport messages; otherwise
it splits the 32-byte secret into content key (first 16 bytes) and tag
(bytes 16 to 31) and decrypts the payload. -/
def decryptMessage
    (aeadDec : Bytes → Bytes → Bytes → Bytes → Option Bytes)
    (unwrap : Bool → Bytes → Option Bytes)
    (encrypted : OmemoEncryptedData) (myDeviceId : Nat) :
    Except String (Option Bytes) :=
  match encrypted.header.keys.find? (fun k => k.rid == myDeviceId) with
  | none => .error ("No key found for device " ++ toString myDeviceId)
  | some keyObj =>
    match unwrap keyObj.preKey keyObj.k with
    | none => .error "Session unwrap failed"
    | some keyAndTag =>
      match encrypted.payload with
      | none => .ok none
      | some payloadBytes =>
        if payloadBytes = [] then .ok none
        else
          let aesKey := keyAndTag.take 16
          let authTag := (keyAndTag.drop 16).take 16
          match aeadDec aesKey encrypted.header.iv authTag payloadBytes with
          | none => .error "Unable to authenticate data"
          | some plain => .ok (some plain)

/-- The outbound encryption decision of XmppClient.sendMessage: with a
nonempty fetched device list the message is encrypted for every device;
a throw of encryptMessage is caught and the send falls back to plain text
(`none`); an empty device list also falls back to plain text without
calling encryptMessage. -/
def outboundEncryption
    (aeadEnc : Bytes → Bytes → Bytes → Bytes × Bytes)
    (wrap : Recipient → Bytes → Option (Bytes × Bool))
    (sid : Option Nat) (key iv : Bytes)
    (devices : List Nat) (bareTo : String) (body : Bytes) :
    Option OmemoEncryptedData :=
  if devices.length > 0 then
    match encryptMessage aeadEnc wrap sid key iv
        (devices.map (fun id => { jid := bareTo, deviceId := id })) body with
    | .ok r => some r
    | .error _ => none
  else none

/-- The signedPreKeyPublic child of a received bundle element: its text and
its signedPreKeyId attribute.  `none` for the id models a missing or
non-numeric attribute, which parseInt turns into NaN. -/
structure SignedPreKeyPublicEl where
  signedPreKeyId : Option Nat
  text : Bytes
deriving DecidableEq

/-- One preKeyPublic child of the prekeys element. -/
structure PreKeyPublicEl where
  preKeyId : Option Nat
  text : Bytes
deriving DecidableEq

/-- A received bundle element with its optional children. -/
structure BundleEl where
  signedPreKeyPublic : Option SignedPreKeyPublicEl
  signedPreKeySignature : Option Bytes
  identityKey : Option Bytes
  prekeys : Option (List PreKeyPublicEl)
deriving DecidableEq

/-- One item element of the pubsub response, possibly holding a bundle. -/
structure BundleItemEl where
  bundle : Option BundleEl
deriving DecidableEq

/-- The correlated iq response to a bundle fetch: error flag, and the item
list when the pubsub and items children are present. -/
structure BundleFetchResponse where
  isError : Bool
  items : Option (List BundleItemEl)
deriving DecidableEq

/-- The record fetchBundle returns on success.  The ids are optional
because parseInt of a missing attribute yields NaN. -/
structure OmemoBundle where
  signedPreKeyPublic : Bytes
  signedPreKeyId : Option Nat
  signedPreKeySignature : Bytes
  identityKey : Bytes
  preKeys : List (Option Nat × Bytes)
deriving DecidableEq

/-- `fetchBundle(jid, deviceId)` applied to the iq response (`none` models
a throw of sendIq, caught and turned into undefined).  Undefined is
returned on an error response, a missing or empty item list, a missing
bundle child, a missing signedPreKeyPublic, signedPreKeySignature or
identityKey child, a missing prekeys child, or an empty prekey list.  The
id attributes are read with parseInt but never validated. -/
def fetchBundle (res : Option BundleFetchResponse) : Option OmemoBundle :=
  match res with
  | none => none
  | some r =>
    if r.isError then none
    else
      match r.items with
      | none => none
      | some [] => none
      | some (item :: _) =>
        match item.bundle with
        | none => none
        | some b =>
          match b.signedPreKeyPublic, b.signedPreKeySignature,
              b.identityKey, b.prekeys with
          | some spk, some sig, some ik, some pks =>
            if pks.length = 0 then none
            else some { signedPreKeyPublic := spk.text,
                        signedPreKeyId := spk.signedPreKeyId,
                        signedPreKeySignature := sig,
                        identityKey := ik,
                        preKeys := pks.map (fun p => (p.preKeyId, p.text)) }
          | _, _, _, _ => none

/-- Stanza kinds distinguished by handleStanza. -/
inductive StanzaKind
  | iq
  | message
  | other
deriving DecidableEq

/-- The parts of an inbound message stanza that handleStanza reads. -/
structure InboundStanza where
  kind : StanzaKind
  body : Option String
  hasEncryptedEl : Bool
  fromJid : String
  oobUrls : List String
deriving DecidableEq

/-- The inbound message event emitted to listeners. -/
structure XmppInboundMessage where
  fromJid : String
  body : String
  oobUrls : List String
  encrypted : Bool
deriving DecidableEq

/-- JavaScript truthiness of the bodyText variable (string or null): falsy
when null or empty. -/
def jsTruthyStr : Option String → Bool
  | none => false
  | some s => s != ""

/-- Outcome of the try block around OMEMO decryption in handleStanza:
`Except.error` models a throw anywhere inside it (malformed header, no key
for this device, ratchet failure, tag mismatch), `Except.ok none` that no
plaintext was produced (local device id unavailable, or a key-transport
null), `Except.ok (some s)` a decrypted plaintext s. -/
abbrev DecryptAttempt := Except Unit (Option String)

/-- The bodyText substitution of handleStanza: a throw is caught and the
fixed placeholder substituted; a decrypted value replaces the body only
when truthy (nonempty). -/
def substituteDecryption (body0 : Option String) (att : DecryptAttempt) :
    Option String :=
  match att with
  | .error _ => some "[OMEMO Decryption Failed]"
  | .ok none => body0
  | .ok (some s) => if s = "" then body0 else some s

/-- `handleStanza` restricted to what it emits: iq stanzas only resolve
pending requests, non-message stanzas are dropped; for message stanzas the
OMEMO block may replace the body, then the stanza is dropped when the body
is falsy and there are no OOB urls, otherwise a message event is emitted.
The whole OMEMO block sits in a try/catch, so this function is total: no
decryption outcome escapes the handler. -/
def handleStanza (omemoEnabled : Bool) (att : DecryptAttempt)
    (st : InboundStanza) : Option XmppInboundMessage :=
  match st.kind with
  | .iq => none
  | .other => none
  | .message =>
    let encrypted := omemoEnabled && st.hasEncryptedEl
    let bodyText :=
      if encrypted then substituteDecryption st.body att else st.body
    if !jsTruthyStr bodyText && st.oobUrls.length == 0 then none
    else some { fromJid := st.fromJid, body := bodyText.getD "",
                oobUrls := st.oobUrls, encrypted := encrypted }

/- Concrete instances used to evaluate the theorems on closed inputs. -/

/-- A toy AEAD scheme: the ciphertext is the message, the tag sixteen zero
bytes. -/
def aeadEnc0 : Bytes → Bytes → Bytes → Bytes × Bytes :=
  fun _ _ m => (m, List.replicate 16 0)

/-- The matching toy AEAD decryption. -/
def aeadDec0 : Bytes → Bytes → Bytes → Bytes → Option Bytes :=
  fun _ _ _ c => some c

/-- A session wrap that succeeds for every recipient, returning the secret
unchanged as an ordinary (non-prekey) message. -/
def wrap0 : Recipient → Bytes → Option (Bytes × Bool) :=
  fun _ s => some (s, false)

/-- The matching per-recipient session unwrap. -/
def unwrap0 : Recipient → Bool → Bytes → Option Bytes :=
  fun _ _ b => some b

/-- A session wrap that fails (the session cipher throws) for every
recipient. -/
def wrapFail : Recipient → Bytes → Option (Bytes × Bool) :=
  fun _ _ => none

/-- Concrete key material for one ensureKeys run. -/
def keyGen0 : KeyGen :=
  { identityKeyPair := { pubKey := [1], privKey := [2] },
    registrationId := 7,
    preKeyPair := fun i => ([i], [i + 1]),
    signedPreKeyPair := ([3], [4]),
    signedPreKeySignature := [5] }

/-- A second run of key material, to show the repeated call ignores it. -/
def keyGen1 : KeyGen :=
  { identityKeyPair := { pubKey := [11], privKey := [12] },
    registrationId := 9,
    preKeyPair := fun i => ([i + 2], [i + 3]),
    signedPreKeyPair := ([13], [14]),
    signedPreKeySignature := [15] }

/-- A store holding an identity key pair, a nonzero registration id and one
one-time prekey, but no signed prekey. -/
def storeNoSignedPreKey : OmemoStore :=
  { data := { identityKeyPair := some { pubKey := [1], privKey := [2] },
              registrationId := some 7, sessions := [],
              preKeys := [(0, { keyId := 0, pubKey := [6], privKey := [7] })],
              signedPreKeys := [], identityKeys := [] },
    disk := { identityKeyPair := some { pubKey := [1], privKey := [2] },
              registrationId := some 7, sessions := [],
              preKeys := [(0, { keyId := 0, pubKey := [6], privKey := [7] })],
              signedPreKeys := [], identityKeys := [] } }

/-- A bundle element whose signedPreKeyPublic child carries no
signedPreKeyId attribute but is otherwise complete. -/
def bundleElMissingId : BundleEl :=
  { signedPreKeyPublic := some { signedPreKeyId := none, text := [1] },
    signedPreKeySignature := some [2],
    identityKey := some [3],
    prekeys := some [{ preKeyId := some 0, text := [4] }] }

/-- A fetch response delivering bundleElMissingId. -/
def responseMissingId : BundleFetchResponse :=
  { isError := false, items := some [{ bundle := some bundleElMissingId }] }

/-- A complete bundle element. -/
def bundleElComplete : BundleEl :=
  { signedPreKeyPublic := some { signedPreKeyId := some 5, text := [1] },
    signedPreKeySignature := some [2],
    identityKey := some [3],
    prekeys := some [{ preKeyId := some 0, text := [4] }] }

/-- A fetch response delivering bundleElComplete. -/
def responseComplete : BundleFetchResponse :=
  { isError := false, items := some [{ bundle := some bundleElComplete }] }

/-- Wire data whose header holds no key entry for device 7. -/
def encNoKeyFor7 : OmemoEncryptedData :=
  { header := { sid := some 1, iv := [9], keys := [] }, payload := some [1] }

/-- A key-transport wire structure: one key entry for device 7, no
payload. -/
def encKeyTransport : OmemoEncryptedData :=
  { header := { sid := some 1, iv := [9],
                keys := [{ rid := 7, k := [5], preKey := false }] },
    payload := none }

/-- An inbound encrypted message stanza with no plain body and no OOB
urls. -/
def stanza0 : InboundStanza :=
  { kind := .message, body := none, hasEncryptedEl := true,
    fromJid := "peer@host", oobUrls := [] }

/-- The wire structure produced by encrypting the empty plaintext for
device 11 with the toy AEAD: the payload is the empty ciphertext (AES-GCM
preserves length, so the empty plaintext gives the empty ciphertext). -/
def encEmptyPlaintext : OmemoEncryptedData :=
  { header := { sid := some 7, iv := List.replicate 12 1,
                keys := [{ rid := 11,
                           k := List.replicate 16 0 ++ List.replicate 16 0,
                           preKey := false }] },
    payload := some [] }

/- Helper lemmas. -/

theorem hexDigit_inj {a b : Nat} (ha : a < 16) (hb : b < 16)
    (h : hexDigit a = hexDigit b) : a = b := by
  unfold hexDigit at h
  split at h <;> split at h <;> omega

theorem byteToHex_inj {a b : Nat} (ha : a < 256) (hb : b < 256)
    (h : byteToHex a = byteToHex b) : a = b := by
  unfold byteToHex at h
  have h1 : hexDigit (a / 16) = hexDigit (b / 16) := by
    simpa using congrArg (fun l => l.headI) h
  have h2 : hexDigit (a % 16) = hexDigit (b % 16) := by
    simpa using congrArg (fun l => l.tail.headI) h
  have d1 : a / 16 = b / 16 := hexDigit_inj (by omega) (by omega) h1
  have d2 : a % 16 = b % 16 := hexDigit_inj (by omega) (by omega) h2
  omega

theorem bytesToHex_inj : ∀ {xs ys : Bytes}, (∀ x ∈ xs, x < 256) →
    (∀ y ∈ ys, y < 256) → bytesToHex xs = bytesToHex ys → xs = ys
  | [], [], _, _, _ => rfl
  | [], _ :: _, _, _, h => by simp [bytesToHex, byteToHex] at h
  | _ :: _, [], _, _, h => by simp [bytesToHex, byteToHex] at h
  | x :: xs, y :: ys, hx, hy, h => by
    simp only [bytesToHex, byteToHex, List.cons_append, List.nil_append,
      List.cons.injEq] at h
    obtain ⟨h1, h2, h3⟩ := h
    have hxy : x = y := byteToHex_inj (hx x (by simp)) (hy y (by simp))
      (by simp [byteToHex, h1, h2])
    have := bytesToHex_inj (fun a ha => hx a (by simp [ha]))
      (fun a ha => hy a (by simp [ha])) h3
    simp [hxy, this]

theorem bytesToHex_ne_nil {bs : Bytes} (h : bs ≠ []) : bytesToHex bs ≠ [] := by
  cases bs with
  | nil => exact absurd rfl h
  | cons b rest => simp [bytesToHex, byteToHex]

theorem getKey_setKey_self {α β : Type} [DecidableEq α] (k : α) (v : β) :
    ∀ m : List (α × β), getKey k (setKey k v m) = some v
  | [] => by simp [getKey, setKey]
  | (k', v') :: rest => by
    by_cases h : k' = k
    · simp [getKey, setKey, h]
    · simp [getKey, setKey, h, getKey_setKey_self k v rest]

theorem setKey_ne_nil {α β : Type} [DecidableEq α] (k : α) (v : β)
    (m : List (α × β)) : setKey k v m ≠ [] := by
  cases m with
  | nil => simp [setKey]
  | cons p rest =>
    obtain ⟨k', v'⟩ := p
    by_cases h : k' = k <;> simp [setKey, h]

theorem setKey_append_of_not_mem {α β : Type} [DecidableEq α] (k : α) (v : β) :
    ∀ m : List (α × β), (∀ p ∈ m, p.1 ≠ k) → setKey k v m = m ++ [(k, v)]
  | [], _ => rfl
  | (k', v') :: rest, h => by
    have hk : k' ≠ k := h (k', v') (by simp)
    simp [setKey, hk,
      setKey_append_of_not_mem k v rest (fun p hp => h p (by simp [hp]))]

/-- The one-time prekey batch written by the first run of ensureKeys into an
empty record is exactly one entry per id 0 to n-1. -/
theorem foldl_setKey_range (f : Nat → PreKeyRaw) :
    ∀ n, (List.range n).foldl (fun m i => setKey i (f i) m) [] =
      (List.range n).map (fun i => (i, f i))
  | 0 => rfl
  | n + 1 => by
    rw [List.range_succ, List.foldl_append, List.map_append,
      foldl_setKey_range f n]
    simp only [List.foldl_cons, List.foldl_nil, List.map_cons, List.map_nil]
    exact setKey_append_of_not_mem n (f n) _ (by
      intro p hp
      obtain ⟨i, hi, rfl⟩ := List.mem_map.mp hp
      have := List.mem_range.mp hi
      omega)

theorem foldl_setKey_range_ne_nil (f : Nat → PreKeyRaw) (n : Nat)
    (m : List (Nat × PreKeyRaw)) :
    (List.range (n + 1)).foldl (fun m i => setKey i (f i) m) m ≠ [] := by
  rw [List.range_succ, List.foldl_append]
  simp only [List.foldl_cons, List.foldl_nil]
  exact setKey_ne_nil _ _ _

/-- Counterexample for C3: pinning the empty key defeats TOFU.  After
isTrustedIdentity(addr, K1) with the empty K1, the stored hex is the empty
string, which the falsy check `if (!existing)` treats as no record — so a
subsequent isTrustedIdentity(addr, K2) with K2 not byte-equal to K1
returns true (and re-saves), where the claim requires false. -/
theorem isTrustedIdentity_tofu_counterexample :
    ((emptyOmemoStore.isTrustedIdentity "peer" []).1.isTrustedIdentity
        "peer" [1, 2]).2 = true := by decide

/-- C3 as amended: isTrustedIdentity implements TOFU for every nonempty
key.  For an address with no stored record and a nonempty K1,
isTrustedIdentity(addr, K1) returns true and persists K1; afterwards, for
every well-formed key K, trust holds iff K is byte-equal to the stored
key, so K2 distinct from K1 is rejected and K1 keeps being accepted.  (For
the empty K1 the stored hex is the empty string, which the falsy check
treats as no record, so every later key is trusted and re-saved.) -/
theorem isTrustedIdentity_tofu (s : OmemoStore) (addr : String) (K1 : Bytes)
    (hnew : getKey addr s.data.identityKeys = none)
    (hK1 : ∀ b ∈ K1, b < 256) (hK1ne : K1 ≠ []) :
    (s.isTrustedIdentity addr K1).2 = true ∧
    getKey addr (s.isTrustedIdentity addr K1).1.data.identityKeys
      = some (bytesToHex K1) ∧
    (∀ K2 : Bytes, (∀ b ∈ K2, b < 256) →
      (((s.isTrustedIdentity addr K1).1.isTrustedIdentity addr K2).2 = true
        ↔ K2 = K1)) ∧
    ((s.isTrustedIdentity addr K1).1.isTrustedIdentity addr K1).2 = true := by
  have hres : s.isTrustedIdentity addr K1
      = ((s.saveIdentity addr K1).1, true) := by
    unfold OmemoStore.isTrustedIdentity
    rw [hnew]
  have hget : getKey addr (s.saveIdentity addr K1).1.data.identityKeys
      = some (bytesToHex K1) := by
    unfold OmemoStore.saveIdentity OmemoStore.save
    simp [getKey_setKey_self]
  have hhex : bytesToHex K1 ≠ [] := bytesToHex_ne_nil hK1ne
  have hiff : ∀ K2 : Bytes, (∀ b ∈ K2, b < 256) →
      (((s.saveIdentity addr K1).1.isTrustedIdentity addr K2).2 = true
        ↔ K2 = K1) := by
    intro K2 hK2
    unfold OmemoStore.isTrustedIdentity
    rw [hget]
    simp only [hhex, if_false, decide_eq_true_eq]
    constructor
    · intro h
      exact bytesToHex_inj hK2 hK1 h.symm
    · intro h
      rw [h]
  refine ⟨by rw [hres], by rw [hres]; exact hget, ?_, ?_⟩
  · intro K2 hK2
    rw [hres]
    exact hiff K2 hK2
  · rw [hres]
    exact (hiff K1 hK1).mpr rfl

/-- Witness for C3: the TOFU sequence on a fresh store with K1 = [1, 2] and
K2 = [3, 4]. -/
theorem isTrustedIdentity_tofu_witness :
    (emptyOmemoStore.isTrustedIdentity "peer" [1, 2]).2 = true ∧
    ((emptyOmemoStore.isTrustedIdentity "peer" [1, 2]).1.isTrustedIdentity
        "peer" [3, 4]).2 = false ∧
    ((emptyOmemoStore.isTrustedIdentity "peer" [1, 2]).1.isTrustedIdentity
        "peer" [1, 2]).2 = true := by
  have h := isTrustedIdentity_tofu emptyOmemoStore "peer" [1, 2] rfl
    (by decide) (by decide)
  refine ⟨h.1, ?_, h.2.2.2⟩
  have h34 := h.2.2.1 [3, 4] (by decide)
  exact Bool.eq_false_iff.mpr (fun hx => absurd (h34.mp hx) (by decide))

/-- Counterexample for C9: isTrustedIdentity does not always refrain from
replacing an existing record.  On a store whose record for the address is
the empty hex (pinned empty key), the falsy check `if (!existing)` fires,
so isTrustedIdentity re-saves the offered key — mutating the store and
returning true — where the claim says only saveIdentity replaces
records. -/
theorem isTrustedIdentity_emptyRecord_counterexample :
    ((emptyOmemoStore.saveIdentity "peer" []).1.isTrustedIdentity
        "peer" [1, 2]).1 ≠ (emptyOmemoStore.saveIdentity "peer" []).1 ∧
    ((emptyOmemoStore.saveIdentity "peer" []).1.isTrustedIdentity
        "peer" [1, 2]).2 = true := by decide

/-- C9 as amended: saveIdentity unconditionally overwrites the record for
the address, persists the store, and returns true iff the stored value
changed; isTrustedIdentity leaves an existing record in place provided the
stored hex is nonempty (a stored empty hex is falsy, so isTrustedIdentity
re-saves and trusts any key in that case).  A pinned identity remains
mutable through the public saveIdentity operation. -/
theorem saveIdentity_overwrites (s : OmemoStore) (addr : String) (K : Bytes) :
    getKey addr (s.saveIdentity addr K).1.data.identityKeys
      = some (bytesToHex K) ∧
    (s.saveIdentity addr K).1.disk = (s.saveIdentity addr K).1.data ∧
    ((s.saveIdentity addr K).2 = true
      ↔ getKey addr s.data.identityKeys ≠ some (bytesToHex K)) ∧
    (∀ K' old, getKey addr s.data.identityKeys = some old → old ≠ [] →
      (s.isTrustedIdentity addr K').1 = s) := by
  refine ⟨?_, ?_, ?_, ?_⟩
  · unfold OmemoStore.saveIdentity OmemoStore.save
    simp [getKey_setKey_self]
  · unfold OmemoStore.saveIdentity OmemoStore.save
    rfl
  · unfold OmemoStore.saveIdentity
    simp
  · intro K' old h hold
    unfold OmemoStore.isTrustedIdentity
    rw [h]
    simp [hold]

/-- Witness for C9: overwriting a pinned identity through saveIdentity on a
store that already pins a different key for the address. -/
theorem saveIdentity_overwrites_witness :
    getKey "peer"
        (((emptyOmemoStore.saveIdentity "peer" [1, 2]).1.saveIdentity
          "peer" [3, 4]).1.data.identityKeys) = some (bytesToHex [3, 4]) ∧
    ((emptyOmemoStore.saveIdentity "peer" [1, 2]).1.saveIdentity
        "peer" [3, 4]).2 = true := by
  have h := saveIdentity_overwrites
    (emptyOmemoStore.saveIdentity "peer" [1, 2]).1 "peer" [3, 4]
  refine ⟨h.1, ?_⟩
  exact h.2.2.1.mpr (by decide)

/-- C4: decryptMessage fails hard with "No key found for device" when no
key entry matches the local device id; when a matching entry exists, its
unwrap succeeds and the wire data carries no payload, it returns the
distinct no-plaintext signal, not an error. -/
theorem decryptMessage_deviceKey
    (aeadDec : Bytes → Bytes → Bytes → Bytes → Option Bytes)
    (unwrap : Bool → Bytes → Option Bytes)
    (e : OmemoEncryptedData) (myDeviceId : Nat) :
    (e.header.keys.find? (fun k => k.rid == myDeviceId) = none →
      decryptMessage aeadDec unwrap e myDeviceId
        = .error ("No key found for device " ++ toString myDeviceId)) ∧
    (∀ keyObj secret,
      e.header.keys.find? (fun k => k.rid == myDeviceId) = some keyObj →
      unwrap keyObj.preKey keyObj.k = some secret →
      e.payload = none →
      decryptMessage aeadDec unwrap e myDeviceId = .ok none) := by
  constructor
  · intro h
    simp only [decryptMessage, h]
  · intro keyObj secret h1 h2 h3
    simp only [decryptMessage, h1, h2, h3]

/-- Witness for C4: wire data with no entry for device 7 is a hard error; a
key-transport structure (entry for device 7, no payload) yields the
no-plaintext signal. -/
theorem decryptMessage_deviceKey_witness :
    decryptMessage aeadDec0 (unwrap0 { jid := "peer", deviceId := 3 })
        encNoKeyFor7 7 = .error "No key found for device 7" ∧
    decryptMessage aeadDec0 (unwrap0 { jid := "peer", deviceId := 3 })
        encKeyTransport 7 = .ok none := by
  constructor
  · exact (decryptMessage_deviceKey aeadDec0 _ encNoKeyFor7 7).1 rfl
  · exact (decryptMessage_deviceKey aeadDec0 _ encKeyTransport 7).2
      { rid := 7, k := [5], preKey := false } [5] rfl rfl rfl

/-- C7: on an inbound encrypted message stanza, a decryption failure is
caught, the fixed placeholder string is substituted as the body, and the
handler still emits the inbound message event; the failure never escapes
handleStanza. -/
theorem handleStanza_decryptionFailure (st : InboundStanza) (e : Unit)
    (hk : st.kind = .message) (henc : st.hasEncryptedEl = true) :
    handleStanza true (.error e) st
      = some { fromJid := st.fromJid, body := "[OMEMO Decryption Failed]",
               oobUrls := st.oobUrls, encrypted := true } := by
  unfold handleStanza
  rw [hk]
  simp [henc, substituteDecryption, jsTruthyStr]

/-- Witness for C7: a concrete encrypted stanza with a failing decrypt
yields the placeholder message. -/
theorem handleStanza_decryptionFailure_witness :
    handleStanza true (.error ()) stanza0
      = some { fromJid := "peer@host", body := "[OMEMO Decryption Failed]",
               oobUrls := [], encrypted := true } :=
  handleStanza_decryptionFailure stanza0 () rfl rfl

/-- C8: a successfully decrypted empty-string plaintext is never
substituted (the handler guards on truthiness), so the original body is
kept; with no plain body and no OOB urls the stanza produces no inbound
message event at all. -/
theorem handleStanza_emptyPlaintext (st : InboundStanza)
    (hk : st.kind = .message) (henc : st.hasEncryptedEl = true) :
    (st.body = none → st.oobUrls = [] →
      handleStanza true (.ok (some "")) st = none) ∧
    (∀ b, st.body = some b → b ≠ "" →
      handleStanza true (.ok (some "")) st
        = some { fromJid := st.fromJid, body := b,
                 oobUrls := st.oobUrls, encrypted := true }) := by
  constructor
  · intro hb ho
    unfold handleStanza
    rw [hk]
    simp [henc, hb, ho, substituteDecryption, jsTruthyStr]
  · intro b hb hbne
    unfold handleStanza
    rw [hk]
    simp [henc, hb, substituteDecryption, jsTruthyStr, hbne]

/-- Witness for C8: an encrypted stanza with empty decrypted plaintext, no
plain body and no OOB urls emits nothing. -/
theorem handleStanza_emptyPlaintext_witness :
    handleStanza true (.ok (some "")) stanza0 = none :=
  (handleStanza_emptyPlaintext stanza0 rfl rfl).1 rfl rfl

/-- Counterexample for C1: with a single recipient whose per-device key
wrap fails, encryptMessage does not yield a non-error result; it throws
"Could not encrypt for any device". -/
theorem encryptMessage_zeroWraps_counterexample :
    encryptMessage aeadEnc0 wrapFail (some 1) (List.replicate 16 0)
      (List.replicate 12 0) [{ jid := "peer", deviceId := 1 }] [104, 105]
      = .error "Could not encrypt for any device" := rfl

/-- C1 as amended: when the wrap fails for every recipient device,
encryptMessage throws the hard error "Could not encrypt for any device";
the caller catches it and falls back to an unencrypted send, and an empty
device list likewise falls back without calling encryptMessage — so the
send-level outcome is the plaintext fallback, but through a caught throw
rather than a non-error result of encryptMessage. -/
theorem encryptMessage_zeroWraps_fallback
    (aeadEnc : Bytes → Bytes → Bytes → Bytes × Bytes)
    (wrap : Recipient → Bytes → Option (Bytes × Bool))
    (sid : Option Nat) (key iv : Bytes)
    (devices : List Nat) (bareTo : String) (msg : Bytes)
    (hfail : ∀ r secret, wrap r secret = none) (hdev : devices ≠ []) :
    encryptMessage aeadEnc wrap sid key iv
      (devices.map (fun id => { jid := bareTo, deviceId := id })) msg
      = .error "Could not encrypt for any device" ∧
    outboundEncryption aeadEnc wrap sid key iv devices bareTo msg = none ∧
    outboundEncryption aeadEnc wrap sid key iv [] bareTo msg = none := by
  have henc : encryptMessage aeadEnc wrap sid key iv
      (devices.map (fun id => { jid := bareTo, deviceId := id })) msg
      = .error "Could not encrypt for any device" := by
    have hkeys : (devices.map (fun id =>
        { jid := bareTo, deviceId := id : Recipient })).filterMap (fun r =>
          (wrap r (key ++ (aeadEnc key iv msg).2)).map (fun w =>
            { rid := r.deviceId, k := w.1, preKey := w.2 : MsgKeyEntry }))
        = [] := by
      rw [List.filterMap_eq_nil_iff]
      intro r _
      rw [hfail]
      rfl
    simp only [encryptMessage]
    rw [hkeys]
    rfl
  refine ⟨henc, ?_, rfl⟩
  have hlen : devices.length > 0 := List.length_pos.mpr hdev
  unfold outboundEncryption
  rw [if_pos hlen, henc]

/-- Witness for the amended C1: one recipient device, failing wrap. -/
theorem encryptMessage_zeroWraps_fallback_witness :
    encryptMessage aeadEnc0 wrapFail (some 1) (List.replicate 16 0)
      (List.replicate 12 0)
      ([11].map (fun id => { jid := "peer", deviceId := id })) [104]
      = .error "Could not encrypt for any device" ∧
    outboundEncryption aeadEnc0 wrapFail (some 1) (List.replicate 16 0)
      (List.replicate 12 0) [11] "peer" [104] = none ∧
    outboundEncryption aeadEnc0 wrapFail (some 1) (List.replicate 16 0)
      (List.replicate 12 0) [] "peer" [104] = none :=
  encryptMessage_zeroWraps_fallback aeadEnc0 wrapFail (some 1)
    (List.replicate 16 0) (List.replicate 12 0) [11] "peer" [104]
    (fun _ _ => rfl) (by decide)

/-- Counterexample for C5: a response whose signedPreKeyPublic element
carries no signedPreKeyId attribute is not rejected; fetchBundle returns a
bundle whose signed prekey id is NaN. -/
theorem fetchBundle_missingId_counterexample :
    fetchBundle (some responseMissingId)
      = some { signedPreKeyPublic := [1], signedPreKeyId := none,
               signedPreKeySignature := [2], identityKey := [3],
               preKeys := [(some 0, [4])] } := rfl

/-- C5 as amended: fetchBundle returns a bundle exactly when the response
is a non-error with a first item whose bundle element has the
signedPreKeyPublic, signedPreKeySignature and identityKey children and a
nonempty prekey list; the id attributes are not validated. -/
theorem fetchBundle_elementComplete (res : Option BundleFetchResponse) :
    (fetchBundle res).isSome = true ↔
      ∃ r item rest b spk sig ik pks,
        res = some r ∧ r.isError = false ∧ r.items = some (item :: rest) ∧
        item.bundle = some b ∧ b.signedPreKeyPublic = some spk ∧
        b.signedPreKeySignature = some sig ∧ b.identityKey = some ik ∧
        b.prekeys = some pks ∧ pks ≠ [] := by
  cases res with
  | none => simp [fetchBundle]
  | some r =>
    cases hE : r.isError with
    | true => simp [fetchBundle, hE]
    | false =>
      cases hI : r.items with
      | none => simp [fetchBundle, hE, hI]
      | some items =>
        cases items with
        | nil => simp [fetchBundle, hE, hI]
        | cons item rest =>
          cases hB : item.bundle with
          | none => simp [fetchBundle, hE, hI, hB]
          | some b =>
            cases hSpk : b.signedPreKeyPublic with
            | none => simp [fetchBundle, hE, hI, hB, hSpk]
            | some spk =>
              cases hSig : b.signedPreKeySignature with
              | none => simp [fetchBundle, hE, hI, hB, hSpk, hSig]
              | some sig =>
                cases hIk : b.identityKey with
                | none => simp [fetchBundle, hE, hI, hB, hSpk, hSig, hIk]
                | some ik =>
                  cases hPks : b.prekeys with
                  | none =>
                    simp [fetchBundle, hE, hI, hB, hSpk, hSig, hIk, hPks]
                  | some pks =>
                    cases pks with
                    | nil =>
                      simp [fetchBundle, hE, hI, hB, hSpk, hSig, hIk, hPks]
                    | cons p ps =>
                      constructor
                      · intro _
                        exact ⟨r, item, rest, b, spk, sig, ik, p :: ps, rfl,
                          hE, hI, hB, hSpk, hSig, hIk, hPks, by simp⟩
                      · intro _
                        simp [fetchBundle, hE, hI, hB, hSpk, hSig, hIk, hPks]

/-- Witness for the amended C5: a complete response yields a bundle. -/
theorem fetchBundle_elementComplete_witness :
    (fetchBundle (some responseComplete)).isSome = true :=
  (fetchBundle_elementComplete (some responseComplete)).mpr
    ⟨responseComplete, { bundle := some bundleElComplete }, [],
     bundleElComplete, { signedPreKeyId := some 5, text := [1] }, [2], [3],
     [{ preKeyId := some 0, text := [4] }],
     rfl, rfl, rfl, rfl, rfl, rfl, rfl, rfl, by decide⟩

/-- ensureKeys is a no-op on any store passing the populated-store
check. -/
theorem ensureKeys_noop (g : KeyGen) (t : OmemoStore)
    (h : ensureKeysCheck t.data = true) :
    OmemoStore.ensureKeys g t = t := by
  unfold OmemoStore.ensureKeys
  simp [h]

/-- After any run of ensureKeys with a nonzero generated registration id,
the populated-store check passes. -/
theorem ensureKeys_populates (g : KeyGen) (s : OmemoStore)
    (hreg : g.registrationId ≠ 0) :
    ensureKeysCheck (OmemoStore.ensureKeys g s).data = true := by
  unfold OmemoStore.ensureKeys
  by_cases h : ensureKeysCheck s.data
  · rw [if_pos h]
    exact h
  · rw [if_neg h]
    have hne : (List.range 100).foldl
        (fun m i => setKey i
          { keyId := i, pubKey := (g.preKeyPair i).1,
            privKey := (g.preKeyPair i).2 } m)
        s.data.preKeys ≠ [] :=
      foldl_setKey_range_ne_nil _ 99 s.data.preKeys
    simp only [OmemoStore.storeSignedPreKey, OmemoStore.putIdentityKeyPair,
      OmemoStore.save, ensureKeysCheck]
    simp [bne_iff_ne, List.length_eq_zero, hne, hreg]

/-- C6: ensureKeys is idempotent — a second call on any store populated by
a prior call (with the nonzero registration id the key helper produces)
changes nothing, and the first run on a fresh store generates a batch of
exactly one hundred one-time prekeys. -/
theorem ensureKeys_idempotent (g g' : KeyGen) (s : OmemoStore)
    (hreg : g.registrationId ≠ 0) :
    OmemoStore.ensureKeys g' (OmemoStore.ensureKeys g s)
      = OmemoStore.ensureKeys g s ∧
    (OmemoStore.ensureKeys g emptyOmemoStore).data.preKeys.length = 100 := by
  constructor
  · exact ensureKeys_noop g' _ (ensureKeys_populates g s hreg)
  · have hck : ensureKeysCheck emptyOmemoStore.data = false := rfl
    unfold OmemoStore.ensureKeys
    rw [if_neg (by simp [hck])]
    have hfold : (List.range 100).foldl
        (fun m i => setKey i
          { keyId := i, pubKey := (g.preKeyPair i).1,
            privKey := (g.preKeyPair i).2 } m)
        emptyOmemoStore.data.preKeys
        = (List.range 100).map (fun i =>
            (i, { keyId := i, pubKey := (g.preKeyPair i).1,
                  privKey := (g.preKeyPair i).2 : PreKeyRaw })) :=
      foldl_setKey_range _ 100
    simp only [OmemoStore.storeSignedPreKey, OmemoStore.putIdentityKeyPair,
      OmemoStore.save]
    simp only [hfold, List.length_map, List.length_range]

/-- Witness for C6: two runs with distinct key material on a fresh store;
the second run changes nothing and the first produced one hundred
one-time prekeys. -/
theorem ensureKeys_idempotent_witness :
    OmemoStore.ensureKeys keyGen1 (OmemoStore.ensureKeys keyGen0 emptyOmemoStore)
      = OmemoStore.ensureKeys keyGen0 emptyOmemoStore ∧
    (OmemoStore.ensureKeys keyGen0 emptyOmemoStore).data.preKeys.length = 100 :=
  ensureKeys_idempotent keyGen0 keyGen1 emptyOmemoStore (by decide)

/-- C10: the populated-store check of ensureKeys never consults the signed
prekey map — on a store holding the identity key pair, a truthy
registration id and at least one one-time prekey but no signed prekey,
ensureKeys returns without generating anything, and publishBundle on that
store throws "Missing keys in store. Cannot publish bundle.". -/
theorem ensureKeys_skipsSignedPreKeys (g : KeyGen) (s : OmemoStore)
    (deviceId : Nat)
    (hik : s.data.identityKeyPair.isSome = true)
    (hreg : s.data.registrationId.getD 0 ≠ 0)
    (hpk : s.data.preKeys ≠ [])
    (hspk : s.data.signedPreKeys = []) :
    OmemoStore.ensureKeys g s = s ∧
    publishBundle s deviceId
      = .error "Missing keys in store. Cannot publish bundle." := by
  constructor
  · have hc : ensureKeysCheck s.data = true := by
      unfold ensureKeysCheck
      simp only [Bool.and_eq_true, bne_iff_ne, ne_eq]
      refine ⟨⟨hik, hreg⟩, ?_⟩
      intro hlen
      exact hpk (List.length_eq_zero.mp hlen)
    unfold OmemoStore.ensureKeys
    rw [if_pos hc]
  · rcases h1 : s.getIdentityKeyPair with _ | ikp <;>
      rcases h3 : s.getPreKeys with _ | ⟨pk, pks⟩ <;>
      simp [publishBundle, OmemoStore.getSignedPreKeys, hspk, h1, h3]

/-- Witness for C10: the concrete store with one prekey and no signed
prekey. -/
theorem ensureKeys_skipsSignedPreKeys_witness :
    OmemoStore.ensureKeys keyGen0 storeNoSignedPreKey = storeNoSignedPreKey ∧
    publishBundle storeNoSignedPreKey 7
      = .error "Missing keys in store. Cannot publish bundle." :=
  ensureKeys_skipsSignedPreKeys keyGen0 storeNoSignedPreKey 7
    (by decide) (by decide) (by decide) (by decide)

/-- In the key-entry list built by encryptMessage over recipients with
pairwise distinct device ids and all-successful wraps, the entry found for
a recipient device id is exactly that recipient's wrapped key. -/
theorem encKeys_find
    (wrap : Recipient → Bytes → Option (Bytes × Bool)) (S : Bytes)
    (wbody : Recipient → Bytes) (wpk : Recipient → Bool) :
    ∀ recipients : List Recipient,
      (recipients.map Recipient.deviceId).Nodup →
      (∀ r ∈ recipients, wrap r S = some (wbody r, wpk r)) →
      ∀ r ∈ recipients,
        (recipients.filterMap (fun r' => (wrap r' S).map (fun w =>
            { rid := r'.deviceId, k := w.1, preKey := w.2 : MsgKeyEntry }))).find?
          (fun k => k.rid == r.deviceId)
          = some { rid := r.deviceId, k := wbody r, preKey := wpk r } := by
  intro recipients
  induction recipients with
  | nil =>
    intro _ _ r hr
    cases hr
  | cons a l ih =>
    intro hnd hw r hr
    simp only [List.map_cons, List.nodup_cons] at hnd
    have hwa : wrap a S = some (wbody a, wpk a) := hw a (by simp)
    rw [List.filterMap_cons]
    rw [hwa]
    simp only [Option.map_some']
    rcases List.mem_cons.mp hr with rfl | hrl
    · rw [List.find?_cons_of_pos _ (by simp)]
    · have hne : ¬ ((a.deviceId == r.deviceId) = true) := by
        simp only [beq_iff_eq]
        intro he
        exact hnd.1 (he ▸ List.mem_map_of_mem Recipient.deviceId hrl)
      rw [List.find?_cons_of_neg]
      · exact ih hnd.2 (fun x hx => hw x (by simp [hx])) r hrl
      · exact hne

/-- decryptMessage evaluated along its success path (the nonempty payload
passes the falsy key-transport check). -/
theorem decryptMessage_ok
    (aeadDec : Bytes → Bytes → Bytes → Bytes → Option Bytes)
    (unwrap : Bool → Bytes → Option Bytes)
    (e : OmemoEncryptedData) (myDeviceId : Nat)
    (keyObj : MsgKeyEntry) (S ct m : Bytes)
    (h1 : e.header.keys.find? (fun k => k.rid == myDeviceId) = some keyObj)
    (h2 : unwrap keyObj.preKey keyObj.k = some S)
    (h3 : e.payload = some ct) (hct : ct ≠ [])
    (h4 : aeadDec (S.take 16) e.header.iv ((S.drop 16).take 16) ct = some m) :
    decryptMessage aeadDec unwrap e myDeviceId = .ok (some m) := by
  simp only [decryptMessage, h1, h2, h3, hct, if_false, h4]

/-- Counterexample for C2: the round-trip fails at the empty plaintext.
AES-GCM preserves length, so encrypting the empty plaintext yields the
empty ciphertext; the payload string is then empty, `if
(!encrypted.payload)` is falsy-true, and decryptMessage returns the
key-transport null instead of the plaintext — so decrypt(encrypt(""))
is null, not "". -/
theorem omemo_roundTrip_counterexample :
    encryptMessage aeadEnc0 wrap0 (some 7) (List.replicate 16 0)
      (List.replicate 12 1) [{ jid := "b", deviceId := 11 }] []
      = .ok encEmptyPlaintext ∧
    decryptMessage aeadDec0 (unwrap0 { jid := "b", deviceId := 11 })
      encEmptyPlaintext 11 = .ok none := ⟨rfl, rfl⟩

/-- C2 as amended: round-trip for every plaintext whose ciphertext is
nonempty (under length-preserving AES-GCM, every nonempty plaintext).  For
every recipient list with pairwise distinct device ids and valid
established sessions (each wrap succeeds and the recipient side unwraps it
back to the 32-byte secret), and a correct AEAD at the chosen key and
nonce (16-byte key, 16-byte tag), every recipient device decrypts the
output of encryptMessage back to the plaintext: the secret splits into the
content key (first 16 bytes) and tag (last 16 bytes) and the payload
AEAD-decrypts with the nonce.  (The empty plaintext instead produces an
empty payload, which decryptMessage treats as a key-transport message and
answers with null.) -/
theorem omemo_roundTrip
    (aeadEnc : Bytes → Bytes → Bytes → Bytes × Bytes)
    (aeadDec : Bytes → Bytes → Bytes → Bytes → Option Bytes)
    (wrap : Recipient → Bytes → Option (Bytes × Bool))
    (unwrapAt : Recipient → Bool → Bytes → Option Bytes)
    (wbody : Recipient → Bytes) (wpk : Recipient → Bool)
    (sid : Option Nat) (key iv msg : Bytes) (recipients : List Recipient)
    (hkey : key.length = 16)
    (htag : (aeadEnc key iv msg).2.length = 16)
    (hct : (aeadEnc key iv msg).1 ≠ [])
    (hdec : aeadDec key iv (aeadEnc key iv msg).2 (aeadEnc key iv msg).1
      = some msg)
    (hnd : (recipients.map Recipient.deviceId).Nodup)
    (hwrap : ∀ r ∈ recipients,
      wrap r (key ++ (aeadEnc key iv msg).2) = some (wbody r, wpk r))
    (hunwrap : ∀ r ∈ recipients,
      unwrapAt r (wpk r) (wbody r) = some (key ++ (aeadEnc key iv msg).2)) :
    ∀ r ∈ recipients, ∃ res,
      encryptMessage aeadEnc wrap sid key iv recipients msg = .ok res ∧
      decryptMessage aeadDec (unwrapAt r) res r.deviceId = .ok (some msg) := by
  intro r hr
  have hfind := encKeys_find wrap (key ++ (aeadEnc key iv msg).2) wbody wpk
    recipients hnd hwrap r hr
  have hklen : ¬ (recipients.filterMap (fun r' =>
      (wrap r' (key ++ (aeadEnc key iv msg).2)).map (fun w =>
        { rid := r'.deviceId, k := w.1, preKey := w.2 : MsgKeyEntry }))).length
      = 0 := by
    intro h0
    rw [List.length_eq_zero] at h0
    rw [h0] at hfind
    simp [List.find?] at hfind
  have htake : (key ++ (aeadEnc key iv msg).2).take 16 = key :=
    List.take_left' hkey
  have hdrop : ((key ++ (aeadEnc key iv msg).2).drop 16).take 16
      = (aeadEnc key iv msg).2 := by
    rw [List.drop_left' hkey, ← htag, List.take_length]
  refine ⟨⟨⟨sid, iv,
      recipients.filterMap (fun r' =>
        (wrap r' (key ++ (aeadEnc key iv msg).2)).map (fun w =>
          { rid := r'.deviceId, k := w.1, preKey := w.2 : MsgKeyEntry }))⟩,
      some (aeadEnc key iv msg).1⟩, ?_, ?_⟩
  · simp only [encryptMessage]
    rw [if_neg hklen]
  · exact decryptMessage_ok aeadDec (unwrapAt r) _ r.deviceId
      { rid := r.deviceId, k := wbody r, preKey := wpk r }
      (key ++ (aeadEnc key iv msg).2) (aeadEnc key iv msg).1 msg
      hfind (hunwrap r hr) rfl hct (by rw [htake, hdrop]; exact hdec)

/-- Witness for C2: two recipient devices 11 and 22 of peer b, the toy
AEAD and identity sessions; device 11 recovers the plaintext. -/
theorem omemo_roundTrip_witness :
    ∃ res,
      encryptMessage aeadEnc0 wrap0 (some 7) (List.replicate 16 0)
        (List.replicate 12 1)
        [{ jid := "b", deviceId := 11 }, { jid := "b", deviceId := 22 }]
        [104, 105] = .ok res ∧
      decryptMessage aeadDec0 (unwrap0 { jid := "b", deviceId := 11 }) res 11
        = .ok (some [104, 105]) :=
  omemo_roundTrip aeadEnc0 aeadDec0 wrap0 unwrap0
    (fun _ => List.replicate 16 0 ++ List.replicate 16 0) (fun _ => false)
    (some 7) (List.replicate 16 0) (List.replicate 12 1) [104, 105]
    [{ jid := "b", deviceId := 11 }, { jid := "b", deviceId := 22 }]
    (by decide) (by decide) (by decide) rfl (by decide)
    (fun r _ => rfl) (fun r _ => rfl)
    { jid := "b", deviceId := 11 } (by decide)
